import Mathlib

set_option maxHeartbeats 1000000

/- Verification of the reddit-thread normalizer and aggregator
   (clean_reddit_jsons.py). JSON values as produced by a standard
   structured-data decoder: null, booleans, numbers, strings, arrays,
   objects (association lists in key order). -/

inductive JValue : Type where
  | null : JValue
  | bool (b : Bool) : JValue
  | num (n : Int) : JValue
  | str (s : String) : JValue
  | arr (elems : List JValue) : JValue
  | obj (fields : List (String × JValue)) : JValue

/- Runtime errors the Python code can raise while normalizing. -/
inductive PyErr : Type where
  | keyError (k : String) : PyErr
  | typeError : PyErr
  | attributeError : PyErr
  | indexError : PyErr
  | recursionError : PyErr
deriving DecidableEq, Repr

/- Association-list lookup, the semantics of Python dict key access. -/
def lookup : List (String × JValue) → String → Option JValue
  | [], _ => none
  | (k', v) :: rest, k => if k' = k then some v else lookup rest k

/- Python dict assignment d[k] = v: update in place if present, append otherwise. -/
def setField : List (String × JValue) → String → JValue → List (String × JValue)
  | [], k, v => [(k, v)]
  | (k', v') :: rest, k, v =>
      if k' = k then (k, v) :: rest else (k', v') :: setField rest k v

/- Field projection on object values (specification-side helper). -/
def JValue.getField : JValue → String → Option JValue
  | .obj fs, k => lookup fs k
  | _, _ => none

/- Python truthiness of a decoded JSON value. -/
def pyTruthy : JValue → Bool
  | .null => false
  | .bool b => b
  | .num n => n != 0
  | .str s => s ≠ ""
  | .arr xs => !xs.isEmpty
  | .obj fs => !fs.isEmpty

/- Python d.get(k, default): AttributeError when d is not a dict. -/
def pyGetD (v : JValue) (k : String) (default : JValue) : Except PyErr JValue :=
  match v with
  | .obj fs => .ok ((lookup fs k).getD default)
  | _ => .error .attributeError

/- Python d.get(k) with the implicit None default. -/
def pyGet1 (v : JValue) (k : String) : Except PyErr JValue :=
  pyGetD v k .null

/- Python v[0]: sequence indexing; KeyError on dicts, TypeError otherwise. -/
def pySub0 : JValue → Except PyErr JValue
  | .arr (x :: _) => .ok x
  | .arr [] => .error .indexError
  | .str s =>
      match s.data with
      | c :: _ => .ok (.str (String.singleton c))
      | [] => .error .indexError
  | .obj _ => .error (.keyError "0")
  | _ => .error .typeError

/- Python v[k] with a string key k. -/
def pySubKey (v : JValue) (k : String) : Except PyErr JValue :=
  match v with
  | .obj fs =>
      match lookup fs k with
      | some x => .ok x
      | none => .error (.keyError k)
  | .str _ => .error .typeError
  | .arr _ => .error .typeError
  | _ => .error .typeError

/- The whitespace characters str.strip removes. -/
def pyIsSpace (c : Char) : Bool :=
  c = ' ' || c = '\t' || c = '\n' || c = '\r' || c = '\x0b' || c = '\x0c'

/- Python s.strip(): drop leading and trailing whitespace. -/
def pyStripStr (s : String) : String :=
  String.mk (((s.data.dropWhile pyIsSpace).reverse.dropWhile pyIsSpace).reverse)

/- Python v.strip(): AttributeError on non-strings. -/
def pyStrip : JValue → Except PyErr JValue
  | .str s => .ok (.str (pyStripStr s))
  | _ => .error .attributeError

/- Python v == s for a string literal s. -/
def pyEqStr (v : JValue) (s : String) : Bool :=
  match v with
  | .str t => t = s
  | _ => false

/- Python iteration (for x in v): dicts yield their keys, strings their
   characters; non-iterables raise TypeError. -/
def pyIterTop : JValue → Except PyErr (List JValue)
  | .arr xs => .ok xs
  | .obj fs => .ok (fs.map (fun kv => JValue.str kv.1))
  | .str s => .ok (s.data.map (fun c => JValue.str (String.singleton c)))
  | _ => .error .typeError

/- Python str(v) for the f-string url synthesis: identity on strings,
   repr-style rendering otherwise (fuel-bounded recursion on containers). -/
def pyReprF : Nat → JValue → String
  | _, .null => "None"
  | _, .bool true => "True"
  | _, .bool false => "False"
  | _, .num n => toString n
  | _, .str s => "'" ++ s ++ "'"
  | 0, .arr _ => ""
  | 0, .obj _ => ""
  | fuel + 1, .arr xs =>
      "[" ++ String.intercalate ", " (xs.map (pyReprF fuel)) ++ "]"
  | fuel + 1, .obj fs =>
      "\x7b" ++
        String.intercalate ", "
          (fs.map (fun kv => "'" ++ kv.1 ++ "': " ++ pyReprF fuel kv.2)) ++
        "\x7d"

/- Python's default recursion limit, the depth at which the interpreter
   raises RecursionError. -/
def pyRecursionLimit : Nat := 1000

def pyStr (v : JValue) : String :=
  match v with
  | .str s => s
  | v => pyReprF pyRecursionLimit v

/- The comment dict literal built inside parse_comment (clean_reddit_jsons.py
   lines 35-48), evaluated on the comment thing's data payload: every field
   access is data.get(...), body is stripped with empty-string default, url is
   synthesized from the permalink when it is truthy. -/
def commentRecordOf (data : JValue) : Except PyErr JValue :=
  match data with
  | .obj fs =>
      (pyStrip ((lookup fs "body").getD (.str ""))).map (fun bodyv =>
        JValue.obj
          [("type", .str "comment"),
           ("id", (lookup fs "id").getD .null),
           ("parent_id", (lookup fs "parent_id").getD .null),
           ("author", (lookup fs "author").getD .null),
           ("subreddit", (lookup fs "subreddit").getD .null),
           ("title", .null),
           ("body", bodyv),
           ("score", (lookup fs "score").getD .null),
           ("num_comments", .null),
           ("created_utc", (lookup fs "created_utc").getD .null),
           ("url",
             if pyTruthy ((lookup fs "permalink").getD .null) then
               JValue.str
                 ("https://reddit.com" ++ pyStr ((lookup fs "permalink").getD .null))
             else JValue.null)])
  | _ => .error .attributeError

/- The loop body shared by lines 53-55 and 58-60:
   for each element, if its kind is "t1", parse it and append the returned
   comment dict to the accumulated comments list. The child parser pc is
   parse_comment at the appropriate recursion depth. -/
def parseChildrenLoop
    (pc : JValue → List JValue → Except PyErr (JValue × List JValue)) :
    List JValue → List JValue → Except PyErr (List JValue)
  | [], acc => .ok acc
  | c :: rest, acc => do
    let k ← pyGet1 c "kind"
    if pyEqStr k "t1" then do
      let r ← pc c acc
      parseChildrenLoop pc rest (r.2 ++ [r.1])
    else
      parseChildrenLoop pc rest acc

/- Iterating (for r in children) over an arbitrary value before the t1
   filter: a non-empty string or dict yields a first element whose .get
   raises AttributeError; non-iterables raise TypeError. -/
def parseChildrenOf
    (pc : JValue → List JValue → Except PyErr (JValue × List JValue))
    (children : JValue) (acc : List JValue) : Except PyErr (List JValue) :=
  match children with
  | .arr xs => parseChildrenLoop pc xs acc
  | .str s => if s.isEmpty then .ok acc else .error .attributeError
  | .obj fs => if fs.isEmpty then .ok acc else .error .attributeError
  | _ => .error .typeError

/- parse_comment (lines 33-56), fuel-indexed by the remaining Python
   recursion depth. It builds the comment dict, then walks a dict-shaped
   replies field, appending every reply-subtree record to the accumulated
   comments list, and finally returns the comment dict (which the caller
   appends after the subtree's records). -/
def parseCommentF : Nat → JValue → List JValue → Except PyErr (JValue × List JValue)
  | 0, _, _ => .error .recursionError
  | fuel + 1, comment, acc => do
    let data ← pyGetD comment "data" (.obj [])
    let cobj ← commentRecordOf data
    let replies ← pyGet1 data "replies"
    match replies with
    | .obj rfs => do
      let rdata ← pyGetD (.obj rfs) "data" (.obj [])
      let rchildren ← pyGetD rdata "children" (.arr [])
      let acc' ← parseChildrenOf (parseCommentF fuel) rchildren acc
      .ok (cobj, acc')
    | _ => .ok (cobj, acc)

/- The post dict literal (lines 17-29) built from the first child's data. -/
def postRecordOf (postData : JValue) : Except PyErr JValue :=
  match postData with
  | .obj fs =>
      (pyStrip ((lookup fs "selftext").getD (.str ""))).map (fun bodyv =>
        JValue.obj
          [("type", .str "post"),
           ("id", (lookup fs "id").getD .null),
           ("parent_id", .null),
           ("author", (lookup fs "author").getD .null),
           ("subreddit", (lookup fs "subreddit").getD .null),
           ("title", (lookup fs "title").getD .null),
           ("body", bodyv),
           ("score", (lookup fs "score").getD .null),
           ("num_comments", (lookup fs "num_comments").getD .null),
           ("created_utc", (lookup fs "created_utc").getD .null),
           ("url", (lookup fs "url").getD .null)])
  | _ => .error .attributeError

/- One iteration of the main loop (lines 9-60) on the running
   (post, comments) state: skip non-dict listings and listings without
   "data"; classify by the first child's kind; a t3 listing rebuilds the
   post from its first child, a t1 listing parses every t1 child. -/
def processListing (st : JValue × List JValue) (listing : JValue) :
    Except PyErr (JValue × List JValue) :=
  match listing with
  | .obj fs =>
    match lookup fs "data" with
    | none => .ok st
    | some dv => do
      let children ← pyGetD dv "children" (.arr [])
      if pyTruthy children then do
        let first ← pySub0 children
        let kind ← pySubKey first "kind"
        if pyEqStr kind "t3" then do
          let postData ← pySubKey first "data"
          let post ← postRecordOf postData
          .ok (post, st.2)
        else if pyEqStr kind "t1" then do
          let comments' ← parseChildrenOf (parseCommentF pyRecursionLimit)
            children st.2
          .ok (st.1, comments')
        else
          .ok st
      else
        .ok st
  | _ => .ok st

/- extract_post_and_comments (lines 5-62): post starts as the empty dict,
   comments as the empty list; every listing of the iterable document is
   processed in order. -/
def extract_post_and_comments (rawData : JValue) :
    Except PyErr (JValue × List JValue) := do
  let listings ← pyIterTop rawData
  listings.foldlM processListing (JValue.obj [], [])

/- item["source_file"] = file.name (line 86): dict assignment on each record;
   TypeError on a non-dict item. -/
def tagRecord (name : String) (item : JValue) : Except PyErr JValue :=
  match item with
  | .obj fs => .ok (.obj (setField fs "source_file" (.str name)))
  | _ => .error .typeError

/- The per-file body of process_folder's try block (lines 78-88): decode the
   file, normalize it, stamp the file name on the post dict and on every
   comment dict, and yield [post] + comments. The raw-bytes decode is
   external; its outcome arrives as an Except value. -/
def processFile (name : String) (decoded : Except PyErr JValue) :
    Except PyErr (List JValue) := do
  let rawData ← decoded
  let pc ← extract_post_and_comments rawData
  (pc.1 :: pc.2).mapM (tagRecord name)

/- process_folder's aggregation loop (lines 77-91): each file's records are
   appended to all_records on success; on any exception the file contributes
   nothing and the failure is recorded against the file's name. -/
def process_folder (files : List (String × Except PyErr JValue)) :
    List JValue × List (String × PyErr) :=
  files.foldl
    (fun st f =>
      match processFile f.1 f.2 with
      | .ok recs => (st.1 ++ recs, st.2)
      | .error e => (st.1, st.2 ++ [(f.1, e)]))
    ([], [])

/- ---------------------------------------------------------------------
   Specification-side helpers and concrete documents.
   --------------------------------------------------------------------- -/

/- Project a string-valued field out of a record (empty when absent). -/
def JValue.strField (v : JValue) (k : String) : String :=
  match v.getField k with
  | some (.str s) => s
  | _ => ""

/- The ids of the comment records of a normalization result, in order. -/
def commentIdList (res : Except PyErr (JValue × List JValue)) : List String :=
  match res with
  | .ok pc => pc.2.map (fun c => c.strField "id")
  | .error _ => []

/- The id of the post record of a normalization result. -/
def postIdOf (res : Except PyErr (JValue × List JValue)) : String :=
  match res with
  | .ok pc => pc.1.strField "id"
  | .error _ => ""

/- A chosen field of the first comment record of a normalization result. -/
def firstCommentField (res : Except PyErr (JValue × List JValue))
    (k : String) : JValue :=
  match res with
  | .ok (_, c :: _) => (c.getField k).getD .null
  | _ => .null

/- The "type" field of each row a file contributes to the table. -/
def rowTypes (res : Except PyErr (List JValue)) : List String :=
  match res with
  | .ok rows => rows.map (fun r => r.strField "type")
  | .error _ => []

/- How lines 10-15 classify a listing: some k when the listing is a dict
   with a "data" key whose truthy children sequence has an indexable first
   element carrying a string "kind" k; none when the listing is skipped or
   any of those accesses would fail. -/
def listingClass (listing : JValue) : Option String :=
  match listing with
  | .obj fs =>
    match lookup fs "data" with
    | none => none
    | some dv =>
      match pyGetD dv "children" (.arr []) with
      | .error _ => none
      | .ok children =>
        if pyTruthy children then
          match pySub0 children with
          | .error _ => none
          | .ok first =>
            match pySubKey first "kind" with
            | .ok (.str k) => some k
            | _ => none
        else none
  | _ => none

/- Records produced by a file, and the failure it reports, if any. -/
def fileRecords (f : String × Except PyErr JValue) : List JValue :=
  match processFile f.1 f.2 with
  | .ok recs => recs
  | .error _ => []

def fileFailure (f : String × Except PyErr JValue) : Option (String × PyErr) :=
  match processFile f.1 f.2 with
  | .ok _ => none
  | .error e => some (f.1, e)

def exceptOk {α : Type} : Except PyErr α → Bool
  | .ok _ => true
  | .error _ => false

/- The spec's pre-order scenario document: one post p1, one comment c1
   carrying one nested reply c2. -/
def c2node : JValue := .obj [("kind", .str "t1"),
  ("data", .obj [("id", .str "c2"), ("parent_id", .str "t1_c1")])]

def c1node : JValue := .obj [("kind", .str "t1"),
  ("data", .obj [("id", .str "c1"), ("parent_id", .str "t3_p1"),
    ("replies", .obj [("data", .obj [("children", .arr [c2node])])])])]

def p1node : JValue := .obj [("kind", .str "t3"),
  ("data", .obj [("id", .str "p1"), ("title", .str "T")])]

def scenarioDoc : JValue := .arr
  [ .obj [("data", .obj [("children", .arr [p1node])])],
    .obj [("data", .obj [("children", .arr [c1node])])] ]

/- A document whose listings carry posts pA then pB. -/
def postListingOf (i : String) : JValue :=
  .obj [("data", .obj [("children", .arr [.obj [("kind", .str "t3"),
    ("data", .obj [("id", .str i)])]])])]

def twoPostDoc : JValue := .arr [postListingOf "pA", postListingOf "pB"]

/- Malformed documents: a first child with no "kind" key; a non-dict child
   inside a comment listing; a comment with a null body value. -/
def noKindDoc : JValue :=
  .arr [.obj [("data", .obj [("children", .arr [.obj []])])]]

def t1minimal : JValue :=
  .obj [("kind", .str "t1"), ("data", .obj [("id", .str "c9")])]

def nonDictChildDoc : JValue :=
  .arr [.obj [("data", .obj [("children", .arr [t1minimal, .str "zz"])])]]

def nullBodyDoc : JValue := .arr [.obj [("data", .obj [("children", .arr
  [.obj [("kind", .str "t1"), ("data", .obj [("body", .null)])]])])]]

/- A comment carrying a permalink, and one carrying an empty permalink. -/
def permalinkDoc : JValue := .arr [.obj [("data", .obj [("children", .arr
  [.obj [("kind", .str "t1"), ("data", .obj [("id", .str "c1"),
    ("permalink", .str "/r/x/comments/abc/")])]])])]]

def emptyPermalinkDoc : JValue := .arr [.obj [("data", .obj [("children", .arr
  [.obj [("kind", .str "t1"), ("data", .obj [("id", .str "c1"),
    ("permalink", .str "")])]])])]]

/- A document holding a single comment and no post listing. -/
def commentOnlyDoc : JValue :=
  .arr [.obj [("data", .obj [("children", .arr [t1minimal])])]]

/- Predicates and helpers used by the statements below. -/

def ShiftOk (pc : JValue → List JValue → Except PyErr (JValue × List JValue)) :
    Prop :=
  ∀ c acc, pc c acc = (pc c []).map (fun p => (p.1, acc ++ p.2))

def IsCommentRecord (x : JValue) : Prop :=
  ∃ data, commentRecordOf data = .ok x

def PreservesComments
    (pc : JValue → List JValue → Except PyErr (JValue × List JValue)) : Prop :=
  ∀ c acc o acc', pc c acc = .ok (o, acc') →
    IsCommentRecord o ∧ ∀ x ∈ acc', x ∈ acc ∨ IsCommentRecord x

/- The post record a t3-classified listing produces, independent of the
   incoming state. -/
def postOfListing (l : JValue) : Except PyErr JValue :=
  (processListing (.obj [], []) l).map Prod.fst

def IsPostRecord (x : JValue) : Prop :=
  ∃ pd, postRecordOf pd = .ok x

/- Stamping as a total map on dict records. -/
def tagRow (name : String) (v : JValue) : JValue :=
  match v with
  | .obj fs => .obj (setField fs "source_file" (.str name))
  | v => v

/- The first row a file contributes to the table. -/
def firstRow (res : Except PyErr (List JValue)) : JValue :=
  match res with
  | .ok (r :: _) => r
  | _ => .null

/- Concrete records the scenario documents normalize to. -/
def c2rec : JValue := .obj
  [("type", .str "comment"), ("id", .str "c2"), ("parent_id", .str "t1_c1"),
   ("author", .null), ("subreddit", .null), ("title", .null),
   ("body", .str ""), ("score", .null), ("num_comments", .null),
   ("created_utc", .null), ("url", .null)]

def c1rec : JValue := .obj
  [("type", .str "comment"), ("id", .str "c1"), ("parent_id", .str "t3_p1"),
   ("author", .null), ("subreddit", .null), ("title", .null),
   ("body", .str ""), ("score", .null), ("num_comments", .null),
   ("created_utc", .null), ("url", .null)]

def c9rec : JValue := .obj
  [("type", .str "comment"), ("id", .str "c9"), ("parent_id", .null),
   ("author", .null), ("subreddit", .null), ("title", .null),
   ("body", .str ""), ("score", .null), ("num_comments", .null),
   ("created_utc", .null), ("url", .null)]

def permRec : JValue := .obj
  [("type", .str "comment"), ("id", .str "c1"), ("parent_id", .null),
   ("author", .null), ("subreddit", .null), ("title", .null),
   ("body", .str ""), ("score", .null), ("num_comments", .null),
   ("created_utc", .null), ("url", .str "https://reddit.com/r/x/comments/abc/")]

def pBrec : JValue := .obj
  [("type", .str "post"), ("id", .str "pB"), ("parent_id", .null),
   ("author", .null), ("subreddit", .null), ("title", .null),
   ("body", .str ""), ("score", .null), ("num_comments", .null),
   ("created_utc", .null), ("url", .null)]

/- ---------------------------------------------------------------------
   Basic reduction lemmas.
   --------------------------------------------------------------------- -/

@[simp] theorem exBind_ok {α β : Type} (a : α) (f : α → Except PyErr β) :
    (Except.ok a : Except PyErr α) >>= f = f a := rfl

@[simp] theorem exBind_err {α β : Type} (e : PyErr) (f : α → Except PyErr β) :
    (Except.error e : Except PyErr α) >>= f = .error e := rfl

@[simp] theorem exMap_ok {α β : Type} (f : α → β) (a : α) :
    (Except.ok a : Except PyErr α).map f = .ok (f a) := rfl

@[simp] theorem exMap_err {α β : Type} (f : α → β) (e : PyErr) :
    (Except.error e : Except PyErr α).map f = .error e := rfl

/- ---------------------------------------------------------------------
   The accumulated comments list is append-only: running any of the
   comment-walking functions from an accumulator acc yields exactly the
   records it would produce from an empty accumulator, appended to acc.
   --------------------------------------------------------------------- -/

theorem parseChildrenLoop_shift
    (pc : JValue → List JValue → Except PyErr (JValue × List JValue))
    (hpc : ShiftOk pc) :
    ∀ (rs : List JValue) (acc : List JValue),
      parseChildrenLoop pc rs acc =
        (parseChildrenLoop pc rs []).map (fun l => acc ++ l) := by
  intro rs
  induction rs with
  | nil => intro acc; simp [parseChildrenLoop]
  | cons c rest ih =>
    intro acc
    simp only [parseChildrenLoop]
    cases hk : pyGet1 c "kind" with
    | error e => simp
    | ok k =>
      simp only [exBind_ok]
      by_cases hkt : pyEqStr k "t1" = true
      · simp only [hkt, if_true]
        rw [hpc c acc]
        cases hr : pc c [] with
        | error e => simp
        | ok p =>
          simp only [exMap_ok, exBind_ok]
          rw [ih (acc ++ p.2 ++ [p.1]), ih (p.2 ++ [p.1])]
          cases parseChildrenLoop pc rest [] with
          | error e => simp
          | ok l => simp
      · simp only [hkt, if_false]
        exact ih acc

theorem parseChildrenOf_shift
    (pc : JValue → List JValue → Except PyErr (JValue × List JValue))
    (hpc : ShiftOk pc) (children : JValue) (acc : List JValue) :
    parseChildrenOf pc children acc =
      (parseChildrenOf pc children []).map (fun l => acc ++ l) := by
  cases children with
  | arr xs => exact parseChildrenLoop_shift pc hpc xs acc
  | str s =>
    simp only [parseChildrenOf]
    by_cases h : s.isEmpty <;> simp [h]
  | obj fs =>
    simp only [parseChildrenOf]
    by_cases h : fs.isEmpty <;> simp [h]
  | null => simp [parseChildrenOf]
  | bool b => simp [parseChildrenOf]
  | num n => simp [parseChildrenOf]

theorem parseCommentF_shift :
    ∀ (fuel : Nat), ShiftOk (parseCommentF fuel) := by
  intro fuel
  induction fuel with
  | zero => intro c acc; simp [parseCommentF]
  | succ fuel ih =>
    intro c acc
    simp only [parseCommentF]
    cases hd : pyGetD c "data" (.obj []) with
    | error e => simp
    | ok data =>
      simp only [exBind_ok]
      cases hc : commentRecordOf data with
      | error e => simp
      | ok cobj =>
        simp only [exBind_ok]
        cases hr : pyGet1 data "replies" with
        | error e => simp
        | ok replies =>
          simp only [exBind_ok]
          cases replies with
          | obj rfs =>
            simp only []
            cases hrd : pyGetD (.obj rfs) "data" (.obj []) with
            | error e => simp
            | ok rdata =>
              simp only [exBind_ok]
              cases hrc : pyGetD rdata "children" (.arr []) with
              | error e => simp
              | ok rchildren =>
                simp only [exBind_ok]
                rw [parseChildrenOf_shift (parseCommentF fuel) ih rchildren acc]
                cases parseChildrenOf (parseCommentF fuel) rchildren [] with
                | error e => simp
                | ok l => simp
          | null => simp
          | bool b => simp
          | num n => simp
          | str s => simp
          | arr xs => simp


/- ---------------------------------------------------------------------
   Every value the comment walk appends to the accumulator is a comment
   record built by commentRecordOf from some data payload.
   --------------------------------------------------------------------- -/

theorem parseChildrenLoop_comments
    (pc : JValue → List JValue → Except PyErr (JValue × List JValue))
    (hpc : PreservesComments pc) :
    ∀ (rs acc acc' : List JValue), parseChildrenLoop pc rs acc = .ok acc' →
      ∀ x ∈ acc', x ∈ acc ∨ IsCommentRecord x := by
  intro rs
  induction rs with
  | nil =>
    intro acc acc' h x hx
    simp only [parseChildrenLoop] at h
    cases h
    exact Or.inl hx
  | cons c rest ih =>
    intro acc acc' h x hx
    simp only [parseChildrenLoop] at h
    cases hk : pyGet1 c "kind" with
    | error e => rw [hk] at h; simp at h
    | ok k =>
      rw [hk] at h
      simp only [exBind_ok] at h
      by_cases hkt : pyEqStr k "t1" = true
      · rw [if_pos hkt] at h
        cases hr : pc c acc with
        | error e => rw [hr] at h; simp at h
        | ok p =>
          rw [hr] at h
          simp only [exBind_ok] at h
          have hstep := hpc c acc p.1 p.2 (by rw [hr])
          have := ih (p.2 ++ [p.1]) acc' h x hx
          rcases this with hmem | hrec
          · rcases List.mem_append.mp hmem with hmem2 | hone
            · rcases hstep.2 x hmem2 with h1 | h2
              · exact Or.inl h1
              · exact Or.inr h2
            · have : x = p.1 := by simpa using hone
              exact Or.inr (this ▸ hstep.1)
          · exact Or.inr hrec
      · rw [if_neg hkt] at h
        exact ih acc acc' h x hx

theorem parseChildrenOf_comments
    (pc : JValue → List JValue → Except PyErr (JValue × List JValue))
    (hpc : PreservesComments pc) (children : JValue) :
    ∀ (acc acc' : List JValue), parseChildrenOf pc children acc = .ok acc' →
      ∀ x ∈ acc', x ∈ acc ∨ IsCommentRecord x := by
  intro acc acc' h x hx
  cases children with
  | arr xs => exact parseChildrenLoop_comments pc hpc xs acc acc' h x hx
  | str s =>
    simp only [parseChildrenOf] at h
    by_cases hs : s.isEmpty
    · rw [if_pos hs] at h; cases h; exact Or.inl hx
    · rw [if_neg hs] at h; cases h
  | obj fs =>
    simp only [parseChildrenOf] at h
    by_cases hs : fs.isEmpty
    · rw [if_pos hs] at h; cases h; exact Or.inl hx
    · rw [if_neg hs] at h; cases h
  | null => simp [parseChildrenOf] at h
  | bool b => simp [parseChildrenOf] at h
  | num n => simp [parseChildrenOf] at h

theorem parseCommentF_comments :
    ∀ (fuel : Nat), PreservesComments (parseCommentF fuel) := by
  intro fuel
  induction fuel with
  | zero => intro c acc o acc' h; simp [parseCommentF] at h
  | succ fuel ih =>
    intro c acc o acc' h
    simp only [parseCommentF] at h
    cases hd : pyGetD c "data" (.obj []) with
    | error e => rw [hd] at h; simp at h
    | ok data =>
      rw [hd] at h
      simp only [exBind_ok] at h
      cases hc : commentRecordOf data with
      | error e => rw [hc] at h; simp at h
      | ok cobj =>
        rw [hc] at h
        simp only [exBind_ok] at h
        cases hr : pyGet1 data "replies" with
        | error e => rw [hr] at h; simp at h
        | ok replies =>
          rw [hr] at h
          simp only [exBind_ok] at h
          cases replies with
          | obj rfs =>
            simp only [] at h
            cases hrd : pyGetD (.obj rfs) "data" (.obj []) with
            | error e => rw [hrd] at h; simp at h
            | ok rdata =>
              rw [hrd] at h
              simp only [exBind_ok] at h
              cases hrc : pyGetD rdata "children" (.arr []) with
              | error e => rw [hrc] at h; simp at h
              | ok rchildren =>
                rw [hrc] at h
                simp only [exBind_ok] at h
                cases hpo : parseChildrenOf (parseCommentF fuel) rchildren acc with
                | error e => rw [hpo] at h; simp at h
                | ok l =>
                  rw [hpo] at h
                  simp only [exBind_ok] at h
                  cases h
                  refine ⟨⟨data, hc⟩, ?_⟩
                  exact parseChildrenOf_comments (parseCommentF fuel) ih
                    rchildren acc acc' hpo
          | null => cases h; exact ⟨⟨data, hc⟩, fun x hx => Or.inl hx⟩
          | bool b => cases h; exact ⟨⟨data, hc⟩, fun x hx => Or.inl hx⟩
          | num n => cases h; exact ⟨⟨data, hc⟩, fun x hx => Or.inl hx⟩
          | str s => cases h; exact ⟨⟨data, hc⟩, fun x hx => Or.inl hx⟩
          | arr xs => cases h; exact ⟨⟨data, hc⟩, fun x hx => Or.inl hx⟩

/- ---------------------------------------------------------------------
   Listing-level lemmas: how one loop iteration treats the post and the
   comments components of the state.
   --------------------------------------------------------------------- -/

theorem pyEqStr_true {v : JValue} {s : String} (h : pyEqStr v s = true) :
    v = .str s := by
  cases v <;> simp [pyEqStr] at h
  exact congrArg JValue.str h

/- Processing a post listing rebuilds the post from that listing alone and
   leaves the comments untouched: an earlier post is overwritten, whatever
   it was. -/
theorem processListing_class_t3 (st : JValue × List JValue) (l : JValue)
    (h : listingClass l = some "t3") :
    processListing st l = (postOfListing l).map (fun r => (r, st.2)) := by
  cases l with
  | obj fs =>
    simp only [listingClass] at h
    cases hdv : lookup fs "data" with
    | none => simp only [hdv] at h; simp at h
    | some dv =>
      simp only [hdv] at h
      cases hch : pyGetD dv "children" (.arr []) with
      | error e => simp only [hch] at h; simp at h
      | ok children =>
        simp only [hch] at h
        by_cases ht : pyTruthy children = true
        · rw [if_pos ht] at h
          cases hf : pySub0 children with
          | error e => simp only [hf] at h; simp at h
          | ok first =>
            simp only [hf] at h
            cases hk : pySubKey first "kind" with
            | error e => simp only [hk] at h; simp at h
            | ok kv =>
              simp only [hk] at h
              cases kv with
              | str ks =>
                simp only [Option.some.injEq] at h
                subst h
                simp only [processListing, postOfListing, hdv, hch,
                  if_pos ht, hf, hk, exBind_ok]
                have h3 : pyEqStr (JValue.str "t3") "t3" = true := by
                  simp [pyEqStr]
                rw [h3]
                simp only [if_true]
                cases hpd : pySubKey first "data" with
                | error e => simp
                | ok pd =>
                  simp only [exBind_ok]
                  cases postRecordOf pd with
                  | error e => simp
                  | ok post => simp
              | null => simp at h
              | bool b => simp at h
              | num n => simp at h
              | arr xs => simp at h
              | obj gs => simp at h
        · rw [if_neg ht] at h; simp at h
  | null => simp [listingClass] at h
  | bool b => simp [listingClass] at h
  | num n => simp [listingClass] at h
  | str s => simp [listingClass] at h
  | arr xs => simp [listingClass] at h

/- Processing any listing not classified as a post listing leaves the post
   component untouched. -/
theorem processListing_post_preserved (st : JValue × List JValue) (l : JValue)
    (st' : JValue × List JValue) (h : listingClass l ≠ some "t3")
    (hp : processListing st l = .ok st') : st'.1 = st.1 := by
  cases l with
  | obj fs =>
    simp only [processListing] at hp
    cases hdv : lookup fs "data" with
    | none => simp only [hdv] at hp; cases hp; rfl
    | some dv =>
      simp only [hdv] at hp
      cases hch : pyGetD dv "children" (.arr []) with
      | error e => simp only [hch] at hp; simp at hp
      | ok children =>
        simp only [hch, exBind_ok] at hp
        by_cases ht : pyTruthy children = true
        · rw [if_pos ht] at hp
          cases hf : pySub0 children with
          | error e => simp only [hf] at hp; simp at hp
          | ok first =>
            simp only [hf, exBind_ok] at hp
            cases hk : pySubKey first "kind" with
            | error e => simp only [hk] at hp; simp at hp
            | ok kv =>
              simp only [hk, exBind_ok] at hp
              by_cases h3 : pyEqStr kv "t3" = true
              · exfalso
                apply h
                have hkv := pyEqStr_true h3
                subst hkv
                simp only [listingClass, hdv, hch, if_pos ht, hf, hk]
              · rw [if_neg h3] at hp
                by_cases h1 : pyEqStr kv "t1" = true
                · rw [if_pos h1] at hp
                  cases hpc : parseChildrenOf (parseCommentF pyRecursionLimit)
                      children st.2 with
                  | error e => simp only [hpc] at hp; simp at hp
                  | ok cs' =>
                    simp only [hpc, exBind_ok] at hp
                    cases hp
                    rfl
                · rw [if_neg h1] at hp; cases hp; rfl
        · rw [if_neg ht] at hp; cases hp; rfl
  | null => simp only [processListing] at hp; cases hp; rfl
  | bool b => simp only [processListing] at hp; cases hp; rfl
  | num n => simp only [processListing] at hp; cases hp; rfl
  | str s => simp only [processListing] at hp; cases hp; rfl
  | arr xs => simp only [processListing] at hp; cases hp; rfl

/- Every comment a loop iteration adds to the state is a comment record. -/
theorem processListing_comments (st : JValue × List JValue) (l : JValue)
    (st' : JValue × List JValue) (hp : processListing st l = .ok st') :
    ∀ x ∈ st'.2, x ∈ st.2 ∨ IsCommentRecord x := by
  cases l with
  | obj fs =>
    simp only [processListing] at hp
    cases hdv : lookup fs "data" with
    | none => simp only [hdv] at hp; cases hp; exact fun x hx => Or.inl hx
    | some dv =>
      simp only [hdv] at hp
      cases hch : pyGetD dv "children" (.arr []) with
      | error e => simp only [hch] at hp; simp at hp
      | ok children =>
        simp only [hch, exBind_ok] at hp
        by_cases ht : pyTruthy children = true
        · rw [if_pos ht] at hp
          cases hf : pySub0 children with
          | error e => simp only [hf] at hp; simp at hp
          | ok first =>
            simp only [hf, exBind_ok] at hp
            cases hk : pySubKey first "kind" with
            | error e => simp only [hk] at hp; simp at hp
            | ok kv =>
              simp only [hk, exBind_ok] at hp
              by_cases h3 : pyEqStr kv "t3" = true
              · rw [if_pos h3] at hp
                cases hpd : pySubKey first "data" with
                | error e => simp only [hpd] at hp; simp at hp
                | ok pd =>
                  simp only [hpd, exBind_ok] at hp
                  cases hpr : postRecordOf pd with
                  | error e => simp only [hpr] at hp; simp at hp
                  | ok post =>
                    simp only [hpr, exBind_ok] at hp
                    cases hp
                    exact fun x hx => Or.inl hx
              · rw [if_neg h3] at hp
                by_cases h1 : pyEqStr kv "t1" = true
                · rw [if_pos h1] at hp
                  cases hpc : parseChildrenOf (parseCommentF pyRecursionLimit)
                      children st.2 with
                  | error e => simp only [hpc] at hp; simp at hp
                  | ok cs' =>
                    simp only [hpc, exBind_ok] at hp
                    cases hp
                    exact parseChildrenOf_comments
                      (parseCommentF pyRecursionLimit)
                      (parseCommentF_comments pyRecursionLimit)
                      children st.2 cs' hpc
                · rw [if_neg h1] at hp; cases hp; exact fun x hx => Or.inl hx
        · rw [if_neg ht] at hp; cases hp; exact fun x hx => Or.inl hx
  | null => simp only [processListing] at hp; cases hp; exact fun x hx => Or.inl hx
  | bool b => simp only [processListing] at hp; cases hp; exact fun x hx => Or.inl hx
  | num n => simp only [processListing] at hp; cases hp; exact fun x hx => Or.inl hx
  | str s => simp only [processListing] at hp; cases hp; exact fun x hx => Or.inl hx
  | arr xs => simp only [processListing] at hp; cases hp; exact fun x hx => Or.inl hx

/- ---------------------------------------------------------------------
   Whole-document lemmas over the main loop.
   --------------------------------------------------------------------- -/

theorem foldPL_nil (st : JValue × List JValue) :
    ([] : List JValue).foldlM processListing st = .ok st := rfl

theorem foldPL_cons (l : JValue) (ls : List JValue)
    (st : JValue × List JValue) :
    (l :: ls).foldlM processListing st =
      processListing st l >>= fun st' => ls.foldlM processListing st' := rfl

/- Comments accumulated over any run of the loop are comment records. -/
theorem foldPL_comments :
    ∀ (ls : List JValue) (st res : JValue × List JValue),
      ls.foldlM processListing st = .ok res →
      ∀ x ∈ res.2, x ∈ st.2 ∨ IsCommentRecord x := by
  intro ls
  induction ls with
  | nil =>
    intro st res h x hx
    rw [foldPL_nil] at h
    cases h
    exact Or.inl hx
  | cons l rest ih =>
    intro st res h x hx
    rw [foldPL_cons] at h
    cases hst : processListing st l with
    | error e => rw [hst] at h; simp at h
    | ok st1 =>
      rw [hst] at h
      simp only [exBind_ok] at h
      rcases ih st1 res h x hx with hmem | hrec
      · exact processListing_comments st l st1 hst x hmem
      · exact Or.inr hrec

/- If no listing is classified t3, the post component never changes. -/
theorem foldPL_post_const :
    ∀ (ls : List JValue) (st res : JValue × List JValue),
      (∀ l ∈ ls, listingClass l ≠ some "t3") →
      ls.foldlM processListing st = .ok res → res.1 = st.1 := by
  intro ls
  induction ls with
  | nil =>
    intro st res _ h
    rw [foldPL_nil] at h
    cases h
    rfl
  | cons l rest ih =>
    intro st res hcl h
    rw [foldPL_cons] at h
    cases hst : processListing st l with
    | error e => rw [hst] at h; simp at h
    | ok st1 =>
      rw [hst] at h
      simp only [exBind_ok] at h
      have h1 : st1.1 = st.1 :=
        processListing_post_preserved st l st1 (hcl l (by simp)) hst
      have h2 : res.1 = st1.1 := ih st1 res (fun x hx => hcl x (by simp [hx])) h
      rw [h2, h1]

/- The post returned by a successful run is the one built from the last
   t3-classified listing. -/
theorem foldPL_last_t3 (ls1 ls2 : List JValue) (l : JValue)
    (st res : JValue × List JValue)
    (hl : listingClass l = some "t3")
    (h2 : ∀ l' ∈ ls2, listingClass l' ≠ some "t3")
    (h : (ls1 ++ l :: ls2).foldlM processListing st = .ok res) :
    postOfListing l = .ok res.1 := by
  rw [List.foldlM_append] at h
  cases hst : ls1.foldlM processListing st with
  | error e => rw [hst] at h; simp at h
  | ok st1 =>
    rw [hst] at h
    simp only [exBind_ok, foldPL_cons] at h
    cases hpl : processListing st1 l with
    | error e => rw [hpl] at h; simp at h
    | ok st2 =>
      rw [hpl] at h
      simp only [exBind_ok] at h
      have hres : res.1 = st2.1 := foldPL_post_const ls2 st2 res h2 h
      rw [processListing_class_t3 st1 l hl] at hpl
      cases hpo : postOfListing l with
      | error e => rw [hpo] at hpl; simp at hpl
      | ok r =>
        rw [hpo] at hpl
        simp only [exMap_ok, Except.ok.injEq] at hpl
        rw [hres, ← hpl]

/- ---------------------------------------------------------------------
   Shape and field lemmas for the produced records.
   --------------------------------------------------------------------- -/

/- A successful comment record exposes its body and url fields. -/
theorem commentRecordOf_fields (fs : List (String × JValue)) (r : JValue)
    (h : commentRecordOf (.obj fs) = .ok r) :
    ∃ t, (lookup fs "body").getD (.str "") = .str t ∧
      r.getField "body" = some (.str (pyStripStr t)) ∧
      r.getField "url" =
        some (if pyTruthy ((lookup fs "permalink").getD .null) then
            JValue.str
              ("https://reddit.com" ++ pyStr ((lookup fs "permalink").getD .null))
          else JValue.null) := by
  simp only [commentRecordOf] at h
  cases hb : (lookup fs "body").getD (.str "") with
  | str t =>
    rw [hb] at h
    simp only [pyStrip, exMap_ok, Except.ok.injEq] at h
    refine ⟨t, rfl, ?_, ?_⟩
    · rw [← h]; simp [JValue.getField, lookup]
    · rw [← h]; simp [JValue.getField, lookup]
  | null => rw [hb] at h; simp [pyStrip] at h
  | bool b => rw [hb] at h; simp [pyStrip] at h
  | num n => rw [hb] at h; simp [pyStrip] at h
  | arr xs => rw [hb] at h; simp [pyStrip] at h
  | obj gs => rw [hb] at h; simp [pyStrip] at h

theorem commentRecordOf_obj (data r : JValue)
    (h : commentRecordOf data = .ok r) : ∃ gs, r = .obj gs := by
  cases data with
  | obj fs =>
    simp only [commentRecordOf] at h
    cases hb : pyStrip ((lookup fs "body").getD (.str "")) with
    | error e => rw [hb] at h; simp at h
    | ok bv =>
      rw [hb] at h
      simp only [exMap_ok, Except.ok.injEq] at h
      exact ⟨_, h.symm⟩
  | null => simp [commentRecordOf] at h
  | bool b => simp [commentRecordOf] at h
  | num n => simp [commentRecordOf] at h
  | str s => simp [commentRecordOf] at h
  | arr xs => simp [commentRecordOf] at h

theorem isCommentRecord_body (x : JValue) (h : IsCommentRecord x) :
    ∃ s, x.getField "body" = some (.str s) := by
  obtain ⟨data, hc⟩ := h
  cases data with
  | obj fs =>
    obtain ⟨t, _, hbody, _⟩ := commentRecordOf_fields fs x hc
    exact ⟨pyStripStr t, hbody⟩
  | null => simp [commentRecordOf] at hc
  | bool b => simp [commentRecordOf] at hc
  | num n => simp [commentRecordOf] at hc
  | str s => simp [commentRecordOf] at hc
  | arr xs => simp [commentRecordOf] at hc

theorem postRecordOf_obj (pd r : JValue)
    (h : postRecordOf pd = .ok r) : ∃ gs, r = .obj gs := by
  cases pd with
  | obj fs =>
    simp only [postRecordOf] at h
    cases hb : pyStrip ((lookup fs "selftext").getD (.str "")) with
    | error e => rw [hb] at h; simp at h
    | ok bv =>
      rw [hb] at h
      simp only [exMap_ok, Except.ok.injEq] at h
      exact ⟨_, h.symm⟩
  | null => simp [postRecordOf] at h
  | bool b => simp [postRecordOf] at h
  | num n => simp [postRecordOf] at h
  | str s => simp [postRecordOf] at h
  | arr xs => simp [postRecordOf] at h

/- The post component after any iteration is either untouched or a post
   record built by postRecordOf. -/
theorem processListing_post_shape (st : JValue × List JValue) (l : JValue)
    (st' : JValue × List JValue) (hp : processListing st l = .ok st') :
    st'.1 = st.1 ∨ IsPostRecord st'.1 := by
  cases l with
  | obj fs =>
    simp only [processListing] at hp
    cases hdv : lookup fs "data" with
    | none => simp only [hdv] at hp; cases hp; exact Or.inl rfl
    | some dv =>
      simp only [hdv] at hp
      cases hch : pyGetD dv "children" (.arr []) with
      | error e => simp only [hch] at hp; simp at hp
      | ok children =>
        simp only [hch, exBind_ok] at hp
        by_cases ht : pyTruthy children = true
        · rw [if_pos ht] at hp
          cases hf : pySub0 children with
          | error e => simp only [hf] at hp; simp at hp
          | ok first =>
            simp only [hf, exBind_ok] at hp
            cases hk : pySubKey first "kind" with
            | error e => simp only [hk] at hp; simp at hp
            | ok kv =>
              simp only [hk, exBind_ok] at hp
              by_cases h3 : pyEqStr kv "t3" = true
              · rw [if_pos h3] at hp
                cases hpd : pySubKey first "data" with
                | error e => simp only [hpd] at hp; simp at hp
                | ok pd =>
                  simp only [hpd, exBind_ok] at hp
                  cases hpr : postRecordOf pd with
                  | error e => simp only [hpr] at hp; simp at hp
                  | ok post =>
                    simp only [hpr, exBind_ok] at hp
                    cases hp
                    exact Or.inr ⟨pd, hpr⟩
              · rw [if_neg h3] at hp
                by_cases h1 : pyEqStr kv "t1" = true
                · rw [if_pos h1] at hp
                  cases hpc : parseChildrenOf (parseCommentF pyRecursionLimit)
                      children st.2 with
                  | error e => simp only [hpc] at hp; simp at hp
                  | ok cs' =>
                    simp only [hpc, exBind_ok] at hp
                    cases hp
                    exact Or.inl rfl
                · rw [if_neg h1] at hp; cases hp; exact Or.inl rfl
        · rw [if_neg ht] at hp; cases hp; exact Or.inl rfl
  | null => simp only [processListing] at hp; cases hp; exact Or.inl rfl
  | bool b => simp only [processListing] at hp; cases hp; exact Or.inl rfl
  | num n => simp only [processListing] at hp; cases hp; exact Or.inl rfl
  | str s => simp only [processListing] at hp; cases hp; exact Or.inl rfl
  | arr xs => simp only [processListing] at hp; cases hp; exact Or.inl rfl

theorem foldPL_post_obj :
    ∀ (ls : List JValue) (st res : JValue × List JValue),
      ls.foldlM processListing st = .ok res →
      (∃ fs, st.1 = JValue.obj fs) → ∃ fs, res.1 = JValue.obj fs := by
  intro ls
  induction ls with
  | nil =>
    intro st res h hst
    rw [foldPL_nil] at h
    cases h
    exact hst
  | cons l rest ih =>
    intro st res h hst
    rw [foldPL_cons] at h
    cases hpl : processListing st l with
    | error e => rw [hpl] at h; simp at h
    | ok st1 =>
      rw [hpl] at h
      simp only [exBind_ok] at h
      refine ih st1 res h ?_
      rcases processListing_post_shape st l st1 hpl with heq | ⟨pd, hpr⟩
      · rw [heq]; exact hst
      · exact postRecordOf_obj pd st1.1 hpr

/- Every component of a successful normalization result is a dict: the
   post (possibly the initial empty dict) and every comment record. -/
theorem extract_shapes (raw p : JValue) (cs : List JValue)
    (h : extract_post_and_comments raw = .ok (p, cs)) :
    (∃ fs, p = JValue.obj fs) ∧ ∀ c ∈ cs, ∃ gs, c = JValue.obj gs := by
  simp only [extract_post_and_comments] at h
  cases hit : pyIterTop raw with
  | error e => rw [hit] at h; simp at h
  | ok listings =>
    rw [hit] at h
    simp only [exBind_ok] at h
    constructor
    · exact foldPL_post_obj listings (.obj [], []) (p, cs) h ⟨[], rfl⟩
    · intro c hc
      rcases foldPL_comments listings (.obj [], []) (p, cs) h c hc with hmem | hicr
      · simp at hmem
      · obtain ⟨data, hcr⟩ := hicr
        exact commentRecordOf_obj data c hcr

/- Every comment record a successful normalization returns is produced by
   commentRecordOf. -/
theorem extract_comments_are_records (raw p : JValue) (cs : List JValue)
    (h : extract_post_and_comments raw = .ok (p, cs)) :
    ∀ c ∈ cs, IsCommentRecord c := by
  simp only [extract_post_and_comments] at h
  cases hit : pyIterTop raw with
  | error e => rw [hit] at h; simp at h
  | ok listings =>
    rw [hit] at h
    simp only [exBind_ok] at h
    intro c hc
    rcases foldPL_comments listings (.obj [], []) (p, cs) h c hc with hmem | hicr
    · simp at hmem
    · exact hicr

/- ---------------------------------------------------------------------
   Aggregator lemmas.
   --------------------------------------------------------------------- -/

theorem lookup_setField :
    ∀ (fs : List (String × JValue)) (k : String) (v : JValue),
      lookup (setField fs k v) k = some v := by
  intro fs k v
  induction fs with
  | nil => simp [setField, lookup]
  | cons kv rest ih =>
    by_cases h : kv.1 = k
    · simp [setField, lookup, h]
    · simp only [setField]
      rw [if_neg h]
      simp only [lookup]
      rw [if_neg h]
      exact ih

theorem tagRow_source (name : String) (fs : List (String × JValue)) :
    (tagRow name (.obj fs)).getField "source_file" = some (.str name) := by
  simp [tagRow, JValue.getField, lookup_setField]

theorem mapM_tagRecord (name : String) :
    ∀ (items : List JValue), (∀ x ∈ items, ∃ fs, x = JValue.obj fs) →
      items.mapM (tagRecord name) = .ok (items.map (tagRow name)) := by
  intro items
  induction items with
  | nil => intro _; rfl
  | cons x rest ih =>
    intro hobj
    rw [List.mapM_cons]
    obtain ⟨fs, hx⟩ := hobj x (by simp)
    subst hx
    have hrest := ih (fun y hy => hobj y (by simp [hy]))
    simp only [tagRecord, exBind_ok, hrest, List.map_cons, tagRow]
    rfl

/- The aggregation loop, fully characterized: the table is the
   concatenation of each file's records in input order, and the failure
   list names exactly the files whose processing raised. -/
theorem process_folder_spec' :
    ∀ (files : List (String × Except PyErr JValue))
      (st : List JValue × List (String × PyErr)),
      files.foldl
        (fun st f =>
          match processFile f.1 f.2 with
          | .ok recs => (st.1 ++ recs, st.2)
          | .error e => (st.1, st.2 ++ [(f.1, e)])) st =
      (st.1 ++ (files.map fileRecords).flatten,
       st.2 ++ files.filterMap fileFailure) := by
  intro files
  induction files with
  | nil => intro st; simp
  | cons f rest ih =>
    intro st
    simp only [List.foldl_cons]
    cases hf : processFile f.1 f.2 with
    | ok recs =>
      rw [ih]
      simp [fileRecords, fileFailure, hf, List.filterMap_cons]
    | error e =>
      rw [ih]
      simp [fileRecords, fileFailure, hf, List.filterMap_cons]

theorem process_folder_spec (files : List (String × Except PyErr JValue)) :
    process_folder files =
      ((files.map fileRecords).flatten, files.filterMap fileFailure) := by
  have := process_folder_spec' files ([], [])
  simpa [process_folder] using this

/- ---------------------------------------------------------------------
   Skip lemmas for wrong-shaped documents.
   --------------------------------------------------------------------- -/

theorem processListing_non_obj (st : JValue × List JValue) (l : JValue)
    (h : ∀ gs, l ≠ JValue.obj gs) : processListing st l = .ok st := by
  cases l with
  | obj gs => exact absurd rfl (h gs)
  | null => rfl
  | bool b => rfl
  | num n => rfl
  | str s => rfl
  | arr xs => rfl

theorem foldPL_skip :
    ∀ (ls : List JValue),
      (∀ l ∈ ls, ∀ st : JValue × List JValue, processListing st l = .ok st) →
      ∀ st, ls.foldlM processListing st = .ok st := by
  intro ls
  induction ls with
  | nil => intro _ st; rfl
  | cons l rest ih =>
    intro h st
    rw [foldPL_cons, h l (by simp) st, exBind_ok]
    exact ih (fun x hx => h x (by simp [hx])) st

/- ---------------------------------------------------------------------
   Claim theorems.
   --------------------------------------------------------------------- -/

/-- Claim C1 as stated is false: in the spec scenario document (post p1,
comment c1 with nested reply c2) the code emits the reply c2 before its
parent c1, not the claimed pre-order [Post(p1), Comment(c1), Comment(c2)]. -/
theorem claim_C1_counterexample :
    commentIdList (extract_post_and_comments scenarioDoc) ≠ ["c1", "c2"] ∧
    commentIdList (extract_post_and_comments scenarioDoc) = ["c2", "c1"] ∧
    postIdOf (extract_post_and_comments scenarioDoc) = "p1" :=
  ⟨by decide, by decide, by decide⟩

/-- Claim C1, amended: for every comment with a container-shaped replies
field, the Normalizer appends every Record produced from the replies
subtree to the output sequence before the parent Comment Record
(post-order: descendants precede the parent). First conjunct: parsing a
comment from any accumulated output appends exactly its replies-subtree
records. Second conjunct: the child loop then appends the parent record
after them. Third conjunct: the scenario document therefore yields the
comment order [c2, c1] after the post. -/
theorem claim_C1_post_order :
    (∀ (fuel : Nat) (c : JValue) (acc : List JValue) (o : JValue)
        (acc' : List JValue), parseCommentF fuel c acc = .ok (o, acc') →
      ∃ ds, parseCommentF fuel c [] = .ok (o, ds) ∧ acc' = acc ++ ds) ∧
    (∀ (fuel : Nat) (c : JValue) (rest acc : List JValue) (o : JValue)
        (ds : List JValue) (k : JValue),
      pyGet1 c "kind" = .ok k → pyEqStr k "t1" = true →
      parseCommentF fuel c [] = .ok (o, ds) →
      parseChildrenLoop (parseCommentF fuel) (c :: rest) acc =
        parseChildrenLoop (parseCommentF fuel) rest (acc ++ ds ++ [o])) ∧
    commentIdList (extract_post_and_comments scenarioDoc) = ["c2", "c1"] := by
  refine ⟨?_, ?_, by decide⟩
  · intro fuel c acc o acc' h
    have hs := parseCommentF_shift fuel c acc
    rw [h] at hs
    cases he : parseCommentF fuel c [] with
    | error e => rw [he] at hs; simp at hs
    | ok p =>
      obtain ⟨o2, ds⟩ := p
      rw [he] at hs
      simp only [exMap_ok, Except.ok.injEq, Prod.mk.injEq] at hs
      obtain ⟨ho, hacc⟩ := hs
      subst ho
      exact ⟨ds, rfl, hacc⟩
  · intro fuel c rest acc o ds k hk hkt hpc
    simp only [parseChildrenLoop, hk, exBind_ok, if_pos hkt]
    have hs := parseCommentF_shift fuel c acc
    rw [hpc] at hs
    simp only [exMap_ok] at hs
    rw [hs, exBind_ok, List.append_assoc]

/-- Claim C1 witness: the second conjunct applied to the scenario comment
c1 (whose replies subtree produces the c2 record): the loop places the
parent record c1rec after the subtree record c2rec. -/
theorem claim_C1_post_order_witness :
    parseChildrenLoop (parseCommentF 3) [c1node] [] =
      parseChildrenLoop (parseCommentF 3) [] ([] ++ [c2rec] ++ [c1rec]) :=
  claim_C1_post_order.2.1 3 c1node [] [] c1rec [c2rec] (.str "t1")
    rfl rfl rfl

/-- Claim C2 as stated is false: in a document with two post listings
(ids pA then pB) the returned post record is built from the second
listing, so the first listing is the one that is ignored. -/
theorem claim_C2_counterexample :
    postIdOf (extract_post_and_comments twoPostDoc) = "pB" ∧
    postIdOf (extract_post_and_comments twoPostDoc) ≠ "pA" :=
  ⟨by decide, by decide⟩

/-- Claim C2, amended: normalize returns at most one post Record (the
state carries a single post slot), but it is built from the last post
listing encountered: processing a post listing rebuilds the post from
that listing alone, overwriting any earlier one (first conjunct), so
after a successful run the post is the one of the final post listing
(second conjunct); the two-post document yields the post pB (third). -/
theorem claim_C2_last_post_wins :
    (∀ (st : JValue × List JValue) (l : JValue),
      listingClass l = some "t3" →
      processListing st l = (postOfListing l).map (fun r => (r, st.2))) ∧
    (∀ (ls1 ls2 : List JValue) (l : JValue) (st res : JValue × List JValue),
      listingClass l = some "t3" →
      (∀ l' ∈ ls2, listingClass l' ≠ some "t3") →
      (ls1 ++ l :: ls2).foldlM processListing st = .ok res →
      postOfListing l = .ok res.1) ∧
    postIdOf (extract_post_and_comments twoPostDoc) = "pB" :=
  ⟨fun st l h => processListing_class_t3 st l h,
   fun ls1 ls2 l st res hl h2 h => foldPL_last_t3 ls1 ls2 l st res hl h2 h,
   by decide⟩

/-- Claim C2 witness: applied to the two-post document, the post built
from the second (last) post listing is the returned one. -/
theorem claim_C2_last_post_wins_witness :
    postOfListing (postListingOf "pB") = .ok pBrec :=
  claim_C2_last_post_wins.2.1 [postListingOf "pA"] [] (postListingOf "pB")
    (.obj [], []) (pBrec, []) rfl (by simp) rfl

/-- Claim C3 as stated is false: a listing whose first child is a dict
without a kind field makes normalization of the whole document raise a
KeyError rather than degrade to defaults. -/
theorem claim_C3_counterexample :
    extract_post_and_comments noKindDoc = .error (.keyError "kind") := rfl

/-- Claim C3, amended: a listing that is not a dict, or has no data key,
is skipped without failing (first two conjuncts), but malformed nodes
inside a processed listing do raise and fail normalization of the
document: a first child without a kind field raises KeyError, a non-dict
child in a comment listing raises AttributeError, and a null body value
raises AttributeError (last three conjuncts). -/
theorem claim_C3_malformed_nodes :
    (∀ (st : JValue × List JValue) (l : JValue),
      (∀ gs, l ≠ JValue.obj gs) → processListing st l = .ok st) ∧
    (∀ (st : JValue × List JValue) (fs : List (String × JValue)),
      lookup fs "data" = none → processListing st (.obj fs) = .ok st) ∧
    extract_post_and_comments noKindDoc = .error (.keyError "kind") ∧
    extract_post_and_comments nonDictChildDoc = .error .attributeError ∧
    extract_post_and_comments nullBodyDoc = .error .attributeError := by
  refine ⟨processListing_non_obj, ?_, rfl, rfl, rfl⟩
  intro st fs h
  simp only [processListing, h]

/-- Claim C3 witness: a non-dict listing (a bare string) is skipped,
leaving the state unchanged. -/
theorem claim_C3_malformed_nodes_witness :
    processListing (.obj [], []) (.str "hello") = .ok (.obj [], []) :=
  claim_C3_malformed_nodes.1 (.obj [], []) (.str "hello")
    (fun _gs h => nomatch h)

/-- Claim C4 as stated is false: the empty document normalizes to the
pair of the empty dict and the empty list, and the empty dict is not the
null value the claim requires. -/
theorem claim_C4_counterexample :
    extract_post_and_comments (.arr []) = .ok (.obj [], []) ∧
    JValue.obj [] ≠ JValue.null :=
  ⟨rfl, fun h => nomatch h⟩

/-- Claim C4, amended: normalize applied to an empty sequence of listings
returns the pair of the empty dict and the empty list, and for any
document in which no post listing is found the returned post component
is the empty dict (the initial value of post), not null. -/
theorem claim_C4_no_post_empty_dict :
    extract_post_and_comments (.arr []) = .ok (.obj [], []) ∧
    (∀ (raw p : JValue) (cs listings : List JValue),
      pyIterTop raw = .ok listings →
      (∀ l ∈ listings, listingClass l ≠ some "t3") →
      extract_post_and_comments raw = .ok (p, cs) → p = JValue.obj []) := by
  refine ⟨rfl, ?_⟩
  intro raw p cs listings hit hcl h
  simp only [extract_post_and_comments, hit, exBind_ok] at h
  exact foldPL_post_const listings (.obj [], []) (p, cs) hcl h

/-- Claim C4 witness: the comment-only document has no post listing and
its returned post component is the empty dict. -/
theorem claim_C4_no_post_empty_dict_witness :
    JValue.obj [] = JValue.obj [] :=
  claim_C4_no_post_empty_dict.2 commentOnlyDoc (.obj []) [c9rec]
    [.obj [("data", .obj [("children", .arr [t1minimal])])]]
    rfl (by decide) rfl

/-- Claim C5 as stated is false: a document with no post still contributes
an extra leading row (the stamped empty post dict), so a comment-only
document yields row types ["", "comment"], not just its comment records. -/
theorem claim_C5_counterexample :
    rowTypes (processFile "f.json" (.ok commentOnlyDoc)) ≠ ["comment"] ∧
    rowTypes (processFile "f.json" (.ok commentOnlyDoc)) = ["", "comment"] :=
  ⟨by decide, by decide⟩

/-- Claim C5, amended: for every successfully normalized document the
Aggregator always appends the post dict first, even when no post was
found (in which case it is the empty dict), followed by that document's
comment Records in order, and stamps source_file on every appended row
(first conjunct); a comment-only document therefore contributes an extra
leading row holding only the source stamp (second and third conjuncts). -/
theorem claim_C5_post_row_always :
    (∀ (name : String) (raw p : JValue) (cs : List JValue),
      extract_post_and_comments raw = .ok (p, cs) →
      processFile name (.ok raw) = .ok ((p :: cs).map (tagRow name)) ∧
      ∀ r ∈ (p :: cs).map (tagRow name),
        r.getField "source_file" = some (.str name)) ∧
    rowTypes (processFile "f.json" (.ok commentOnlyDoc)) = ["", "comment"] ∧
    firstRow (processFile "f.json" (.ok commentOnlyDoc)) =
      .obj [("source_file", .str "f.json")] := by
  refine ⟨?_, by decide, rfl⟩
  intro name raw p cs h
  have hsh := extract_shapes raw p cs h
  have hall : ∀ x ∈ p :: cs, ∃ fs, x = JValue.obj fs := by
    intro x hx
    rcases List.mem_cons.mp hx with rfl | hx
    · exact hsh.1
    · exact hsh.2 x hx
  constructor
  · simp only [processFile, exBind_ok, h]
    exact mapM_tagRecord name (p :: cs) hall
  · intro r hr
    obtain ⟨x, hx, rfl⟩ := List.mem_map.mp hr
    obtain ⟨fs, rfl⟩ := hall x hx
    exact tagRow_source name fs

/-- Claim C5 witness: applied to the comment-only document, the file
contributes the stamped empty post dict followed by the stamped comment. -/
theorem claim_C5_post_row_always_witness :
    processFile "f.json" (.ok commentOnlyDoc) =
      .ok ((JValue.obj [] :: [c9rec]).map (tagRow "f.json")) :=
  (claim_C5_post_row_always.1 "f.json" commentOnlyDoc (.obj []) [c9rec] rfl).1

/-- Claim C6 is confirmed: the aggregation run always completes with the
table being exactly the concatenation, in input order, of the records of
the succeeding documents, and the failure list naming exactly the failed
documents (first conjunct); in particular, when one document fails among
otherwise-succeeding ones, the table holds exactly the other documents'
records and the single failure is recorded against that document's name
(second conjunct). -/
theorem claim_C6_failure_isolation :
    (∀ files, process_folder files =
        ((files.map fileRecords).flatten, files.filterMap fileFailure)) ∧
    (∀ (pre post : List (String × Except PyErr JValue))
        (bad : String × Except PyErr JValue) (e : PyErr),
      processFile bad.1 bad.2 = .error e →
      (∀ f ∈ pre ++ post, exceptOk (processFile f.1 f.2) = true) →
      process_folder (pre ++ bad :: post) =
        ((pre.map fileRecords).flatten ++ (post.map fileRecords).flatten,
         [(bad.1, e)])) := by
  have hnone : ∀ (f : String × Except PyErr JValue),
      exceptOk (processFile f.1 f.2) = true → fileFailure f = none := by
    intro f h
    unfold fileFailure
    cases hp : processFile f.1 f.2 with
    | ok recs => rfl
    | error e => rw [hp] at h; simp [exceptOk] at h
  refine ⟨process_folder_spec, ?_⟩
  intro pre post bad e hbad hok
  rw [process_folder_spec]
  have hbadrec : fileRecords bad = [] := by
    unfold fileRecords; rw [hbad]
  have hbadfail : fileFailure bad = some (bad.1, e) := by
    unfold fileFailure; rw [hbad]
  have hpre : pre.filterMap fileFailure = [] :=
    List.filterMap_eq_nil_iff.mpr
      (fun f hf => hnone f (hok f (List.mem_append.mpr (Or.inl hf))))
  have hpost : post.filterMap fileFailure = [] :=
    List.filterMap_eq_nil_iff.mpr
      (fun f hf => hnone f (hok f (List.mem_append.mpr (Or.inr hf))))
  simp [List.map_append, List.filterMap_append, List.filterMap_cons,
    hbadrec, hbadfail, hpre, hpost]

/-- Claim C6 witness: three concrete files where the middle one fails to
decode; the table is exactly the records of the first and third, and the
single failure is recorded under the failing file's name. -/
theorem claim_C6_failure_isolation_witness :
    process_folder
      [("a.json", .ok (.arr [])), ("bad.json", .error .typeError),
       ("c.json", .ok commentOnlyDoc)] =
      (([("a.json", (.ok (.arr []) : Except PyErr JValue))].map
          fileRecords).flatten ++
        ([("c.json", (.ok commentOnlyDoc : Except PyErr JValue))].map
          fileRecords).flatten,
       [("bad.json", PyErr.typeError)]) :=
  claim_C6_failure_isolation.2
    [("a.json", .ok (.arr []))] [("c.json", .ok commentOnlyDoc)]
    ("bad.json", .error .typeError) .typeError rfl (by decide)

/-- Claim C7 is confirmed: every comment Record the Normalizer returns
carries a string body (first conjunct), and on the comment dict literal
an absent source body field normalizes to the empty string while a
present string body is trimmed of leading and trailing whitespace
(second conjunct). -/
theorem claim_C7_body_string :
    (∀ (raw p : JValue) (cs : List JValue),
      extract_post_and_comments raw = .ok (p, cs) →
      ∀ c ∈ cs, ∃ s, c.getField "body" = some (.str s)) ∧
    (∀ (fs : List (String × JValue)) (r : JValue),
      commentRecordOf (.obj fs) = .ok r →
      (lookup fs "body" = none → r.getField "body" = some (.str "")) ∧
      (∀ t, lookup fs "body" = some (.str t) →
        r.getField "body" = some (.str (pyStripStr t)))) := by
  constructor
  · intro raw p cs h c hc
    exact isCommentRecord_body c (extract_comments_are_records raw p cs h c hc)
  · intro fs r h
    obtain ⟨t, hgetd, hbody, _⟩ := commentRecordOf_fields fs r h
    constructor
    · intro hnone
      rw [hnone] at hgetd
      simp only [Option.getD_none, JValue.str.injEq] at hgetd
      rw [← hgetd] at hbody
      exact hbody
    · intro t' hsome
      rw [hsome] at hgetd
      simp only [Option.getD_some, JValue.str.injEq] at hgetd
      rw [← hgetd] at hbody
      exact hbody

/-- Claim C7 witness: the minimal comment (no body field in its data)
normalizes to a record whose body is the empty string. -/
theorem claim_C7_body_string_witness :
    JValue.getField c9rec "body" = some (.str "") :=
  (claim_C7_body_string.2 [("id", .str "c9")] c9rec rfl).1 rfl

/-- Claim C8 as stated is false: a comment whose permalink is present but
empty gets a null url, not the fixed origin concatenated with the empty
permalink. -/
theorem claim_C8_counterexample :
    firstCommentField (extract_post_and_comments emptyPermalinkDoc) "url" =
      JValue.null ∧
    firstCommentField (extract_post_and_comments emptyPermalinkDoc) "url" ≠
      JValue.str "https://reddit.com" :=
  ⟨rfl, fun h => nomatch h⟩

/-- Claim C8, amended: the url field equals the fixed site origin
concatenated with the permalink exactly when the permalink value is
truthy (a non-empty string), and is null when the permalink is absent,
null, or empty (first conjunct); the permalink scenario yields the
concatenated url, while a comment with no permalink or an empty one
yields a null url (remaining conjuncts). -/
theorem claim_C8_url :
    (∀ (fs : List (String × JValue)) (r : JValue),
      commentRecordOf (.obj fs) = .ok r →
      r.getField "url" = some
        (if pyTruthy ((lookup fs "permalink").getD .null) then
          JValue.str
            ("https://reddit.com" ++ pyStr ((lookup fs "permalink").getD .null))
        else JValue.null)) ∧
    firstCommentField (extract_post_and_comments permalinkDoc) "url" =
      .str "https://reddit.com/r/x/comments/abc/" ∧
    firstCommentField (extract_post_and_comments commentOnlyDoc) "url" =
      .null ∧
    firstCommentField (extract_post_and_comments emptyPermalinkDoc) "url" =
      .null := by
  refine ⟨?_, rfl, rfl, rfl⟩
  intro fs r h
  obtain ⟨t, _, _, hurl⟩ := commentRecordOf_fields fs r h
  exact hurl

/-- Claim C8 witness: the comment with permalink /r/x/comments/abc/ has
its url synthesized from the fixed origin and the permalink. -/
theorem claim_C8_url_witness :
    JValue.getField permRec "url" = some
      (if pyTruthy ((lookup [("id", JValue.str "c1"),
          ("permalink", JValue.str "/r/x/comments/abc/")] "permalink").getD
          .null) then
        JValue.str ("https://reddit.com" ++
          pyStr ((lookup [("id", JValue.str "c1"),
            ("permalink", JValue.str "/r/x/comments/abc/")] "permalink").getD
            .null))
      else JValue.null) :=
  claim_C8_url.1
    [("id", .str "c1"), ("permalink", .str "/r/x/comments/abc/")] permRec rfl

/-- Claim C9 is confirmed: normalize is a pure function of its input —
normalizing the same document twice yields identical results (first
conjunct), and the one piece of internal mutable state, the shared
comments list, is append-only and never influences the records produced:
parsing a comment from any accumulated output equals parsing it from the
empty output with the fresh records appended (second conjunct). -/
theorem claim_C9_pure :
    (∀ raw, extract_post_and_comments raw = extract_post_and_comments raw) ∧
    (∀ (fuel : Nat) (c : JValue) (acc : List JValue),
      parseCommentF fuel c acc =
        (parseCommentF fuel c []).map (fun p => (p.1, acc ++ p.2))) :=
  ⟨fun _ => rfl, fun fuel c acc => parseCommentF_shift fuel c acc⟩

/- A listing that fails the line-10 test (not a dict, or no data key) is
skipped outright. -/
theorem processListing_skip (st : JValue × List JValue) (l : JValue)
    (h : ∀ gs, l = JValue.obj gs → lookup gs "data" = none) :
    processListing st l = .ok st := by
  cases l with
  | obj gs => simp only [processListing, h gs rfl]
  | null => rfl
  | bool b => rfl
  | num n => rfl
  | str s => rfl
  | arr xs => rfl

/-- Claim C10 as stated is false: some iterable documents whose elements
are not container-shaped listings do raise. An element that is a dict
whose data key holds a non-dict payload raises AttributeError at the
.get call (line 12), and one whose truthy children value is not
subscriptable raises TypeError at the first-child index (line 15). -/
theorem claim_C10_counterexample :
    extract_post_and_comments (.arr [.obj [("data", .str "x")]]) =
      .error .attributeError ∧
    extract_post_and_comments
        (.arr [.obj [("data", .obj [("children", .num 5)])]]) =
      .error .typeError :=
  ⟨rfl, rfl⟩

/-- Claim C10, amended: an element of an iterable document is silently
skipped exactly when it fails the guard of line 10 — it is not a dict,
or it is a dict without a data key — so a top-level dict (whose
iteration yields its string keys), a top-level string (characters), or
a list of such elements normalizes to the empty result, the empty post
dict and no comments (first three conjuncts); a non-iterable document
(null, a number, a boolean) raises TypeError (next three conjuncts);
but an iterable document whose element is a dict carrying a data key
with malformed contents raises rather than degrading: a non-dict data
payload raises AttributeError and a truthy non-subscriptable children
value raises TypeError (last two conjuncts). -/
theorem claim_C10_wrong_shape :
    (∀ fs, extract_post_and_comments (.obj fs) = .ok (.obj [], [])) ∧
    (∀ s, extract_post_and_comments (.str s) = .ok (.obj [], [])) ∧
    (∀ xs, (∀ x ∈ xs, ∀ gs, x = JValue.obj gs → lookup gs "data" = none) →
      extract_post_and_comments (.arr xs) = .ok (.obj [], [])) ∧
    extract_post_and_comments .null = .error .typeError ∧
    (∀ n, extract_post_and_comments (.num n) = .error .typeError) ∧
    (∀ b, extract_post_and_comments (.bool b) = .error .typeError) ∧
    extract_post_and_comments (.arr [.obj [("data", .str "x")]]) =
      .error .attributeError ∧
    extract_post_and_comments
        (.arr [.obj [("data", .obj [("children", .num 5)])]]) =
      .error .typeError := by
  refine ⟨?_, ?_, ?_, rfl, fun _ => rfl, fun _ => rfl, rfl, rfl⟩
  · intro fs
    simp only [extract_post_and_comments, pyIterTop, exBind_ok]
    exact foldPL_skip _
      (by
        intro l hl st
        obtain ⟨kv, _, hkv⟩ := List.mem_map.mp hl
        rw [← hkv]
        rfl) _
  · intro s
    simp only [extract_post_and_comments, pyIterTop, exBind_ok]
    exact foldPL_skip _
      (by
        intro l hl st
        obtain ⟨ch, _, hch⟩ := List.mem_map.mp hl
        rw [← hch]
        rfl) _
  · intro xs hxs
    simp only [extract_post_and_comments, pyIterTop, exBind_ok]
    exact foldPL_skip _
      (fun l hl st => processListing_skip st l (hxs l hl)) _

/-- Claim C10 witness: a list holding a number, a string and a dict with
no data key normalizes to the empty post dict and no comments. -/
theorem claim_C10_wrong_shape_witness :
    extract_post_and_comments
        (.arr [.num 3, .str "x", .obj [("kind", .str "t1")]]) =
      .ok (.obj [], []) :=
  claim_C10_wrong_shape.2.2.1 [.num 3, .str "x", .obj [("kind", .str "t1")]]
    (by
      intro x hx gs h
      fin_cases hx
      · exact nomatch h
      · exact nomatch h
      · injection h with h2
        subst h2
        rfl)
